import Mathlib

/-
A shallow embedding of `jaipur.py`, a rules engine for the two-player card
game Jaipur, together with theorems checking its natural-language
specification against the code.

Modelling conventions:
  * Python `Multiset` objects keyed by card type become functions
    `CardType → Nat` (`MSet`); multiset difference truncates at zero,
    exactly as the `multiset` library does.
  * Python lists that are popped from the end (`list.pop()`) stay in Python
    order; `popTop` removes the last element.
  * Python exceptions become `Except`/`Option` results.  `IllegalPlayError`
    and `ValueError` are the errors caught by `take_action`; a `TypeError`
    (raised by `sum` over a list of token objects) is not caught and leaves
    the automat machine stranded in the state it had already entered.
  * The two players always carry the distinct names "Player 1"/"Player 2" in
    the source, so the identity comparisons `current_player == self.player1`
    are modelled by a boolean `cur` (`true` = player 1).
  * Shuffling is the only randomness; a `Shuffle` record supplies the
    shuffled deck and bonus piles that `_setup_round` would produce.
-/

namespace Jaipur

/-- The seven card types of `CardType` in `jaipur.py`, in declaration order. -/
inductive CardType
  | camel | leather | spice | cloth | silver | gold | diamonds
deriving DecidableEq

/-- Enumeration of all card types, in the Python `CardType` iteration order. -/
def allCardTypes : List CardType :=
  [.camel, .leather, .spice, .cloth, .silver, .gold, .diamonds]

/-- The six goods types, i.e. every `CardType` except `CAMEL`, in the order
the Python `Tokens` dict iterates them. -/
def goodsTypes : List CardType :=
  [.leather, .spice, .cloth, .silver, .gold, .diamonds]

/-- A multiset of cards keyed by type, as the Python `Multiset`/`PlayArea`
containers: the function gives each type's multiplicity. -/
abbrev MSet := CardType → Nat

/-- The empty multiset (`Multiset()` / `PlayArea()`). -/
def mzero : MSet := fun _ => 0

/-- Add one card of type `c` (`Multiset.add`). -/
def madd1 (m : MSet) (c : CardType) : MSet :=
  fun x => if x = c then m x + 1 else m x

/-- Set the multiplicity of type `c` (`multiset[c] = n`). -/
def setCount (m : MSet) (c : CardType) (n : Nat) : MSet :=
  fun x => if x = c then n else m x

/-- Multiset union-sum (`Multiset.__add__`). -/
def madd (m1 m2 : MSet) : MSet := fun x => m1 x + m2 x

/-- Multiset difference (`Multiset.__sub__`): truncates at zero, as the
`multiset` library (and `collections.Counter`) do. -/
def msub (m1 m2 : MSet) : MSet := fun x => m1 x - m2 x

/-- Total size of a multiset (`len(multiset)` counts multiplicity). -/
def msize (m : MSet) : Nat := (allCardTypes.map m).sum

/-- A multiset built from a list of card types. -/
def MSet.ofList (l : List CardType) : MSet := fun c => l.count c

/-- Number of distinct types present (`len(multiset.distinct_elements())`). -/
def distinctCount (m : MSet) : Nat :=
  (allCardTypes.filter (fun c => decide (0 < m c))).length

/-- The Python test `a > b` on multisets: `a` is a proper super-multiset of
`b` (the `multiset` library's `_issuperset(other, strict=True)`): `b` is
pointwise below `a` and `a` is strictly larger in total size. -/
def mgt (a b : MSet) : Bool :=
  decide (msize b < msize a) && allCardTypes.all (fun c => decide (b c ≤ a c))

/-- The Python test `take.distinct_elements() < give` in `_execute_action`.
The `multiset` library resolves the comparison of the distinct-elements view
with the multiset `give` as a strict subset test: every distinct element of
`take` must occur in `give`, and the number of distinct elements of `take`
must be strictly smaller than `give`'s total size. -/
def sameTypeFlag (take give : MSet) : Bool :=
  decide (distinctCount take < msize give) &&
    allCardTypes.all (fun c => decide (take c = 0) || decide (0 < give c))

/-- Remove the last element of a list, as Python's `list.pop()`; `none` when
the list is empty (Python raises `IndexError`). -/
def popTop {α : Type} : List α → Option (α × List α)
  | [] => none
  | a :: as =>
    match popTop as with
    | none => some (a, [])
    | some (c, rest) => some (c, a :: rest)

/-- A goods token (`Token`, carrying its type and point value) or a bonus
token (`BonusToken`, carrying its tier and point value) held by a player. -/
inductive PToken
  | goods (t : CardType) (v : Nat)
  | bonus (tier : Nat) (v : Nat)
deriving DecidableEq

/-- Point value of a held token (`Token.value` / `BonusToken.value`). -/
def PToken.value : PToken → Nat
  | .goods _ v => v
  | .bonus _ v => v

/-- The Python test `isinstance(t, BonusToken)`. -/
def PToken.isBonus : PToken → Bool
  | .bonus _ _ => true
  | .goods _ _ => false

/-- The Python test `isinstance(t, Token)` (goods tokens; `BonusToken` is a
separate class, not a subclass of `Token`). -/
def PToken.isGoods : PToken → Bool
  | .goods _ _ => true
  | .bonus _ _ => false

/-- A player (`Player`): hand multiset, awarded tokens in award order, and
seal count.  The constant `name` field is omitted; see the header note. -/
structure Player where
  hand : MSet
  tokens : List PToken
  seals : Nat

/-- `Player.cards_in_hand`: hand size excluding camels (camels do not count
against the hand limit). -/
def cardsInHand (p : Player) : Nat := (goodsTypes.map p.hand).sum

/-- `Player.points`: the sum of the values of all tokens the player holds. -/
def playerPoints (p : Player) : Nat := (p.tokens.map PToken.value).sum

/-- The automat machine states of `JaipurGame`. -/
inductive GState
  | setup | playerTurn | betweenTurns | betweenRounds
  | player1Victory | player2Victory
deriving DecidableEq

/-- The four `ActionType` payloads of `player_action`. -/
inductive Action
  | takeCamels
  | takeSingle (c : CardType)
  | takeMany (take give : MSet)
  | sell (c : CardType) (q : Int)

/-- The two externally callable inputs of the machine. -/
inductive Input
  | startRound
  | playerAction (a : Action)

/-- Python exceptions raised by `_execute_action` and the scoring code. -/
inductive PyError
  | illegalPlay | valueError | typeError
deriving DecidableEq

/-- How a processed input can fail: the automat `NoTransition` error for an
input the current state does not accept, or a propagated Python exception. -/
inductive StepErr
  | noTransition
  | py (e : PyError)
deriving DecidableEq

/-- The whole game object (`JaipurGame`): players, play area (market), deck
in Python list order, the six goods-token piles, the three bonus piles, the
current player flag and the machine state. -/
structure Game where
  player1 : Player
  player2 : Player
  playArea : MSet
  deck : List CardType
  tokens : CardType → List Nat
  bonus3 : List Nat
  bonus4 : List Nat
  bonus5 : List Nat
  cur : Bool
  state : GState

/-- The acting player (`self.current_player`). -/
def getCur (g : Game) : Player := if g.cur then g.player1 else g.player2

/-- Write back the acting player's record. -/
def setCur (g : Game) (p : Player) : Game :=
  if g.cur then { g with player1 := p } else { g with player2 := p }

/-- The fresh goods-token piles built by `Tokens()`/`TokenPile`, in Python
list order (index 0 first; `pop()` takes from the end).  `CAMEL` has no pile
in the Python dict and is never looked up (selling camels is rejected first
and the round-end check iterates only the six goods piles). -/
def initTokens : CardType → List Nat
  | .leather => [4, 3, 2, 1, 1, 1, 1, 1, 1]
  | .spice => [5, 3, 3, 2, 2, 1, 1]
  | .cloth => [5, 3, 3, 2, 2, 1, 1]
  | .silver => [5, 5, 5, 5, 5]
  | .gold => [6, 6, 5, 5, 5]
  | .diamonds => [7, 7, 5, 5, 5]
  | .camel => []

/-- The unshuffled tier-3 bonus pile of `BonusTokenPile(3)`. -/
def bonus3Init : List Nat := [1, 1, 2, 2, 2, 3, 3]

/-- The unshuffled tier-4 bonus pile of `BonusTokenPile(4)`. -/
def bonus4Init : List Nat := [4, 4, 5, 5, 6, 6]

/-- The unshuffled tier-5 bonus pile of `BonusTokenPile(5)`. -/
def bonus5Init : List Nat := [8, 8, 9, 10, 10]

/-- The 55-card `StandardDeck` in construction order: 11 camels, 10 leather,
8 spice, 8 cloth, 6 silver, 6 gold, 6 diamonds. -/
def standardDeck : List CardType :=
  List.replicate 11 CardType.camel ++ List.replicate 10 CardType.leather ++
  List.replicate 8 CardType.spice ++ List.replicate 8 CardType.cloth ++
  List.replicate 6 CardType.silver ++ List.replicate 6 CardType.gold ++
  List.replicate 6 CardType.diamonds

/-- The randomness consumed by one `_setup_round`: the shuffled deck and the
three shuffled bonus piles. -/
structure Shuffle where
  deck : List CardType
  b3 : List Nat
  b4 : List Nat
  b5 : List Nat

/-- Award `n` goods tokens from a pile for a sale: each iteration of the
Python loop pops the pile's last element and appends it to the player's
token list, silently stopping when the pile is exhausted.  Returns the
awarded values in award order, and the remaining pile. -/
def sellTokens : List Nat → Nat → List Nat × List Nat
  | pile, 0 => ([], pile)
  | pile, n + 1 =>
    match popTop pile with
    | none => ([], pile)
    | some (v, rest) =>
      let r := sellTokens rest n
      (v :: r.1, r.2)

/-- Replace the goods-token pile of type `c`. -/
def updatePile (t : CardType → List Nat) (c : CardType) (pile : List Nat) :
    CardType → List Nat :=
  fun x => if x = c then pile else t x

/-- `JaipurGame._execute_action`: validate and apply one player action,
mutating nothing when an exception is raised (every `raise` in the source
precedes the first mutation of its branch). -/
def executeAction (g : Game) (a : Action) : Except PyError Game :=
  let player := getCur g
  match a with
  | .takeCamels =>
    let n := g.playArea CardType.camel
    if n = 0 then .error .illegalPlay
    else
      .ok (setCur { g with playArea := setCount g.playArea CardType.camel 0 }
        { player with
            hand := setCount player.hand CardType.camel
              (player.hand CardType.camel + n) })
  | .takeSingle c =>
    if 7 ≤ cardsInHand player then .error .illegalPlay
    else if 0 < g.playArea c then
      .ok (setCur { g with playArea := setCount g.playArea c (g.playArea c - 1) }
        { player with hand := setCount player.hand c (player.hand c + 1) })
    else .error .illegalPlay
  | .takeMany take give =>
    if msize take ≠ msize give then .error .valueError
    else if msize take ≤ 1 then .error .illegalPlay
    else if 0 < take CardType.camel then .error .illegalPlay
    else if sameTypeFlag take give then .error .illegalPlay
    else if mgt take g.playArea then .error .illegalPlay
    else if mgt give player.hand then .error .illegalPlay
    else
      .ok (setCur { g with playArea := madd (msub g.playArea take) give }
        { player with hand := madd (msub player.hand give) take })
  | .sell c q =>
    if c = CardType.camel then .error .illegalPlay
    else if q = 0 then .error .illegalPlay
    else if (player.hand c : Int) < q then .error .illegalPlay
    else if (c = CardType.silver ∨ c = CardType.gold ∨ c = CardType.diamonds)
        ∧ q = 1 then .error .illegalPlay
    else
      let newHand := setCount player.hand c ((player.hand c : Int) - q).toNat
      let sold := sellTokens (g.tokens c) q.toNat
      let toks1 := player.tokens ++ sold.1.map (fun v => PToken.goods c v)
      let bq := min q 5
      let afterBonus :=
        if bq = 3 then
          match popTop g.bonus3 with
          | some (v, rest) =>
            (toks1 ++ [PToken.bonus 3 v], rest, g.bonus4, g.bonus5)
          | none => (toks1, g.bonus3, g.bonus4, g.bonus5)
        else if bq = 4 then
          match popTop g.bonus4 with
          | some (v, rest) =>
            (toks1 ++ [PToken.bonus 4 v], g.bonus3, rest, g.bonus5)
          | none => (toks1, g.bonus3, g.bonus4, g.bonus5)
        else if bq = 5 then
          match popTop g.bonus5 with
          | some (v, rest) =>
            (toks1 ++ [PToken.bonus 5 v], g.bonus3, g.bonus4, rest)
          | none => (toks1, g.bonus3, g.bonus4, g.bonus5)
        else (toks1, g.bonus3, g.bonus4, g.bonus5)
      .ok (setCur
        { g with
            tokens := updatePile g.tokens c sold.2
            bonus3 := afterBonus.2.1
            bonus4 := afterBonus.2.2.1
            bonus5 := afterBonus.2.2.2 }
        { player with hand := newHand, tokens := afterBonus.1 })

/-- The refill loop of `_fill_play_area`: while the play area has fewer than
5 cards, pop the top deck card into it; stop silently when the deck empties.
The loop body runs at most five times, so fuel 5 is exact. -/
def fillAux : Nat → List CardType → MSet → List CardType × MSet
  | 0, d, pa => (d, pa)
  | f + 1, d, pa =>
    if msize pa < 5 then
      match popTop d with
      | none => (d, pa)
      | some (c, rest) => fillAux f rest (madd1 pa c)
    else (d, pa)

/-- `JaipurGame._fill_play_area`. -/
def fillPlayArea (g : Game) : Game :=
  let r := fillAux 5 g.deck g.playArea
  { g with deck := r.1, playArea := r.2 }

/-- The count `len([v for v in self.tokens.values() if len(v) >= 3])` used
by `_check_for_end_of_round`: how many goods-token piles still hold at least
3 tokens. -/
def pilesGE3 (g : Game) : Nat :=
  (goodsTypes.filter (fun c => decide (3 ≤ (g.tokens c).length))).length

/-- Python's built-in `sum` applied to a list of token *objects* (not their
values), as in the bonus/goods tie-break of `_check_for_end_of_round`: the
sum of an empty iterable is 0, and any non-empty iterable of `Token` or
`BonusToken` instances raises `TypeError` (`0 + token` is unsupported). -/
def pySumObjects (l : List PToken) : Except PyError Nat :=
  match l with
  | [] => .ok 0
  | _ :: _ => .error .typeError

/-- The winner-resolution cascade of `_check_for_end_of_round`, given both
players' camel-adjusted point totals: points, then the `sum` over each
player's bonus-token objects, then the `sum` over goods-token objects.
Returns `some true` for player 1, `some false` for player 2, `none` for no
winner; propagates the `TypeError` of a non-empty object sum. -/
def decideWinner (pts1 pts2 : Nat) (p1 p2 : Player) :
    Except PyError (Option Bool) :=
  if pts2 < pts1 then .ok (some true)
  else if pts1 < pts2 then .ok (some false)
  else
    match pySumObjects (p1.tokens.filter PToken.isBonus) with
    | .error e => .error e
    | .ok b1 =>
      match pySumObjects (p2.tokens.filter PToken.isBonus) with
      | .error e => .error e
      | .ok b2 =>
        if b2 < b1 then .ok (some true)
        else if b1 < b2 then .ok (some false)
        else
          match pySumObjects (p1.tokens.filter PToken.isGoods) with
          | .error e => .error e
          | .ok q1 =>
            match pySumObjects (p2.tokens.filter PToken.isGoods) with
            | .error e => .error e
            | .ok q2 =>
              if q2 < q1 then .ok (some true)
              else if q1 < q2 then .ok (some false)
              else .ok none

/-- Remove the first camel of the deck, as `deck.pop(deck.index(CAMEL))`;
`none` when no camel is present (Python raises `ValueError`). -/
def eraseCamel (d : List CardType) : Option (List CardType) :=
  if CardType.camel ∈ d then some (d.erase CardType.camel) else none

/-- One dealing loop of `_setup_round`: `n` times, pop the top deck card and
add it to the multiset; `none` if the deck runs out (Python `IndexError`). -/
def dealLoop : Nat → List CardType → MSet → Option (List CardType × MSet)
  | 0, d, m => some (d, m)
  | n + 1, d, m =>
    match popTop d with
    | none => none
    | some (c, rest) => dealLoop n rest (madd1 m c)

/-- The container work of `_setup_round` on a shuffled deck: move 3 camels
and then 2 top cards to a fresh play area, then deal 5 top cards into each
player's existing hand.  Returns the remaining deck, play area and hands. -/
def setupCore (sh : Shuffle) (h1 h2 : MSet) :
    Option (List CardType × MSet × MSet × MSet) :=
  match eraseCamel sh.deck with
  | none => none
  | some d1 =>
    match eraseCamel d1 with
    | none => none
    | some d2 =>
      match eraseCamel d2 with
      | none => none
      | some d3 =>
        match dealLoop 2 d3 (madd1 (madd1 (madd1 mzero CardType.camel)
            CardType.camel) CardType.camel) with
        | none => none
        | some (d4, pa) =>
          match dealLoop 5 d4 h1 with
          | none => none
          | some (d5, h1x) =>
            match dealLoop 5 d5 h2 with
            | none => none
            | some (d6, h2x) => some (d6, pa, h1x, h2x)

/-- `JaipurGame._setup_round`: rebuild play area, deck, goods tokens and
bonus piles, seed the market and deal the hands.  Hands, token lists, seal
counts and the current-player flag are not reset.  `none` models the
(unreachable for a real 55-card shuffle) mid-setup crash. -/
def setupRound (sh : Shuffle) (g : Game) : Option Game :=
  match setupCore sh g.player1.hand g.player2.hand with
  | none => none
  | some (d, pa, h1, h2) =>
    some { g with
      playArea := pa
      deck := d
      tokens := initTokens
      bonus3 := sh.b3
      bonus4 := sh.b4
      bonus5 := sh.b5
      player1 := { g.player1 with hand := h1 }
      player2 := { g.player2 with hand := h2 }
      state := .playerTurn }

/-- `JaipurGame._check_for_end_of_game`: award victory at two seals, else
start the next round (the machine is in the between-rounds state; a
mid-setup crash would leave it in the player-turn state it just entered). -/
def checkEndOfGame (sh : Shuffle) (g : Game) : Game × Option StepErr :=
  if g.player1.seals = 2 then ({ g with state := .player1Victory }, none)
  else if g.player2.seals = 2 then ({ g with state := .player2Victory }, none)
  else
    match setupRound sh g with
    | some g2 => (g2, none)
    | none => ({ g with state := .playerTurn }, some (.py .valueError))

/-- The round-end branch of `_check_for_end_of_round`: compute camel-adjusted
points, run the winner cascade, award a seal, make the loser the next acting
player, then `_end_round` into `_check_for_end_of_game`.  A `TypeError` from
the cascade propagates and leaves the machine stranded in the between-turns
state with no seal awarded. -/
def roundEnd (sh : Shuffle) (g : Game) : Game × Option StepErr :=
  let base1 := playerPoints g.player1
  let base2 := playerPoints g.player2
  let c1 := g.player1.hand CardType.camel
  let c2 := g.player2.hand CardType.camel
  let pts1 := if c2 < c1 then base1 + 5 else base1
  let pts2 := if c1 < c2 then base2 + 5 else base2
  match decideWinner pts1 pts2 g.player1 g.player2 with
  | .error e => ({ g with state := .betweenTurns }, some (.py e))
  | .ok w =>
    match w with
    | some true =>
      checkEndOfGame sh
        { g with
            player1 := { g.player1 with seals := g.player1.seals + 1 }
            cur := false }
    | some false =>
      checkEndOfGame sh
        { g with
            player2 := { g.player2 with seals := g.player2.seals + 1 }
            cur := true }
    | none => checkEndOfGame sh g

/-- The `_action_success` output chain: refill the market, then run
`_check_for_end_of_round`, which ends the round exactly when the deck is
empty or no goods-token pile holds at least 3 tokens, and otherwise advances
to the next turn, toggling the acting player. -/
def afterSuccess (sh : Shuffle) (g1 : Game) : Game × Option StepErr :=
  let g2 := fillPlayArea g1
  if g2.deck.length = 0 ∨ pilesGE3 g2 = 0 then roundEnd sh g2
  else ({ g2 with cur := !g2.cur, state := .playerTurn }, none)

/-- One complete processing of an external input by the automat machine,
including all internally chained transitions.  Inputs without a transition
from the current state raise `NoTransition` and change nothing; a rejected
action re-enters the player-turn state with the game untouched. -/
def machineStep (sh : Shuffle) (g : Game) (i : Input) : Game × Option StepErr :=
  match g.state, i with
  | .setup, .startRound | .betweenRounds, .startRound =>
    (match setupRound sh g with
     | some g2 => (g2, none)
     | none => ({ g with state := .playerTurn }, some (.py .valueError)))
  | .playerTurn, .playerAction a =>
    (match executeAction g a with
     | .error e => (g, some (.py e))
     | .ok g1 => afterSuccess sh g1)
  | _, _ => (g, some .noTransition)

/-- Total number of cards in the deck, the market and both hands. -/
def cardTotal (g : Game) : Nat :=
  g.deck.length + msize g.playArea + msize g.player1.hand +
    msize g.player2.hand

/-- Count of bonus tokens a player holds (the quantity the specification's
tie-break compares). -/
def bonusCount (p : Player) : Nat := (p.tokens.filter PToken.isBonus).length

/-- Count of goods tokens a player holds (the quantity the specification's
tie-break compares). -/
def goodsCount (p : Player) : Nat := (p.tokens.filter PToken.isGoods).length

/-- A player with no cards, no tokens and no seals, as freshly constructed. -/
def emptyPlayer : Player := { hand := mzero, tokens := [], seals := 0 }

/-- A freshly constructed `JaipurGame` before any input. -/
def initialGame : Game :=
  { player1 := emptyPlayer
    player2 := emptyPlayer
    playArea := mzero
    deck := standardDeck
    tokens := initTokens
    bonus3 := bonus3Init
    bonus4 := bonus4Init
    bonus5 := bonus5Init
    cur := true
    state := .setup }

/-- The identity shuffle: the deck and bonus piles in construction order. -/
def shStd : Shuffle :=
  { deck := standardDeck, b3 := bonus3Init, b4 := bonus4Init, b5 := bonus5Init }

/-- Did `_execute_action` succeed on this game and action? -/
def execIsOk (g : Game) (a : Action) : Bool :=
  match executeAction g a with
  | .ok _ => true
  | .error _ => false

/-- Player 1's count of cards of type `c` after a successful action. -/
def execHandP1 (g : Game) (a : Action) (c : CardType) : Option Nat :=
  match executeAction g a with
  | .ok g2 => some (g2.player1.hand c)
  | .error _ => none

/-- Player 1's token list after a successful action. -/
def execTokensP1 (g : Game) (a : Action) : Option (List PToken) :=
  match executeAction g a with
  | .ok g2 => some g2.player1.tokens
  | .error _ => none

/-- The goods-token pile of type `c` after a successful action. -/
def execPile (g : Game) (a : Action) (c : CardType) : Option (List Nat) :=
  match executeAction g a with
  | .ok g2 => some (g2.tokens c)
  | .error _ => none

/-- A mid-round position whose market holds three camels, a leather and a
spice, and whose acting player holds a leather and a camel. -/
def c2game : Game :=
  { initialGame with
    playArea := MSet.ofList [.camel, .camel, .camel, .leather, .spice]
    player1 := { emptyPlayer with hand := MSet.ofList [.leather, .camel] }
    state := .playerTurn }

/-- An exchange whose take and give multisets share the type leather. -/
def c2act : Action :=
  .takeMany (MSet.ofList [.leather, .spice]) (MSet.ofList [.leather, .camel])

/-- A mid-round position in which the acting player holds no leather. -/
def c7game : Game := { initialGame with state := .playerTurn }

/-- A mid-round position in which the acting player holds one leather and
all goods-token piles are still full. -/
def c6game : Game :=
  { initialGame with
    player1 := { emptyPlayer with hand := MSet.ofList [.leather] }
    state := .playerTurn }

/-- A shuffled deck (a permutation of the 55-card standard deck) arranged so
that after setup the market is three camels, a leather and a spice, player 1
holds five leather and player 2 holds five cloth. -/
def c4deck : List CardType :=
  List.replicate 3 .camel ++
  (List.replicate 8 .camel ++ List.replicate 4 .leather ++
   List.replicate 7 .spice ++ List.replicate 3 .cloth ++
   List.replicate 6 .silver ++ List.replicate 6 .gold ++
   List.replicate 6 .diamonds) ++
  List.replicate 5 .cloth ++ List.replicate 5 .leather ++ [.spice, .leather]

/-- The shuffle delivering `c4deck`. -/
def c4sh : Shuffle := { shStd with deck := c4deck }

/-- The game reached by starting a round of a fresh game with `c4sh`. -/
def c4g0 : Game := (machineStep c4sh initialGame .startRound).1

/-- An exchange taking two leather for two camels the player does not hold,
while the market holds only one leather. -/
def c4act : Action :=
  .takeMany (MSet.ofList [.leather, .leather]) (MSet.ofList [.camel, .camel])

/-- The game reached from `c4g0` by playing `c4act`. -/
def c4g1 : Game := (machineStep c4sh c4g0 (.playerAction c4act)).1

/-- A position one action away from a round end with tied points: the deck
is empty, one camel is in the market, player 1 holds a bonus token worth 1,
player 2 holds a camel and a goods token worth 1. -/
def c1game : Game :=
  { initialGame with
    playArea := MSet.ofList [.camel]
    deck := []
    player1 := { emptyPlayer with tokens := [PToken.bonus 3 1] }
    player2 := { emptyPlayer with
      hand := MSet.ofList [.camel]
      tokens := [PToken.goods .leather 1] }
    state := .playerTurn }

/-- Goods-token piles of which exactly two (leather and spice) still hold at
least 3 tokens. -/
def c5tokens : CardType → List Nat
  | .leather => [1, 1, 1]
  | .spice => [2, 2, 2]
  | _ => []

/-- A position with a non-empty deck and exactly two goods-token piles still
holding at least 3 tokens. -/
def c5game : Game :=
  { initialGame with
    playArea := MSet.ofList [.camel, .leather, .leather, .leather, .leather]
    deck := [.gold, .gold]
    tokens := c5tokens
    state := .playerTurn }

/-- C1.  At a round end with tied camel-adjusted points, where player 1
holds strictly more bonus tokens than player 2 (1 against 0), the
specification says player 1 wins the seal.  Instead the code's tie-break
applies Python `sum` to the bonus-token objects themselves, which raises
`TypeError`: no seal is awarded and the machine is left stranded in the
between-turns state. -/
theorem tie_break_sums_token_objects_and_crashes :
    playerPoints c1game.player1 = playerPoints c1game.player2 ∧
    bonusCount c1game.player1 = 1 ∧ bonusCount c1game.player2 = 0 ∧
    (machineStep shStd c1game (.playerAction .takeCamels)).1.player1.hand
        CardType.camel =
      (machineStep shStd c1game (.playerAction .takeCamels)).1.player2.hand
        CardType.camel ∧
    (machineStep shStd c1game (.playerAction .takeCamels)).2 =
      some (StepErr.py PyError.typeError) ∧
    (machineStep shStd c1game (.playerAction .takeCamels)).1.state =
      GState.betweenTurns ∧
    (machineStep shStd c1game (.playerAction .takeCamels)).1.player1.seals = 0 ∧
    (machineStep shStd c1game (.playerAction .takeCamels)).1.player2.seals = 0 := by
  decide

/-- C2.  An exchange whose take and give multisets share the good type
leather is accepted by `_execute_action` (the check
`take.distinct_elements() < give` does not fire), although the claim says
every such exchange is rejected. -/
theorem shared_type_exchange_accepted :
    0 < (MSet.ofList [.leather, .spice]) CardType.leather ∧
    0 < (MSet.ofList [.leather, .camel]) CardType.leather ∧
    execIsOk c2game c2act = true ∧
    execHandP1 c2game c2act CardType.spice = some 1 := by
  decide

/-- C4.  The standard deck has 55 cards, not 52, so the claimed total is
wrong from the start; moreover the exchange stock checks test proper
supersets (`take > play_area`, `give > hand`) instead of failed
sub-multiset inclusions, so `c4act` executes even though the market lacks a
second leather and the hand holds no camels: truncating multiset arithmetic
then raises the total card count from 55 to 58 inside a single round. -/
theorem card_conservation_violated_by_exchange :
    standardDeck.length = 55 ∧
    List.Perm c4deck standardDeck ∧
    (machineStep c4sh initialGame .startRound).2 = none ∧
    cardTotal c4g0 = 55 ∧
    c4g0.playArea CardType.leather = 1 ∧
    c4g0.player1.hand CardType.camel = 0 ∧
    (machineStep c4sh c4g0 (.playerAction c4act)).2 = none ∧
    c4g1.state = GState.playerTurn ∧
    cardTotal c4g1 = 58 := by
  decide

/-- C6.  Selling one leather from a full pile awards the token of value 1
(the *last* element of `[4, 3, 2, 1, 1, 1, 1, 1, 1]`, popped by
`list.pop()`), not the highest remaining value 4 demanded by the claim; the
4 is still on the pile afterwards. -/
theorem sell_awards_lowest_value_token :
    initTokens CardType.leather = [4, 3, 2, 1, 1, 1, 1, 1, 1] ∧
    execTokensP1 c6game (.sell .leather 1) =
      some [PToken.goods CardType.leather 1] ∧
    execPile c6game (.sell .leather 1) CardType.leather =
      some [4, 3, 2, 1, 1, 1, 1, 1] := by
  decide

/-- C7.  A sell of quantity -1 of leather by a player holding no leather is
accepted (`_execute_action` only rejects quantity 0), and the assignment
`hand[c] -= quantity` then *adds* a leather card to the hand, although the
claim says every sell with quantity ≤ 0 is rejected with the hand
unchanged. -/
theorem negative_quantity_sell_accepted :
    c7game.player1.hand CardType.leather = 0 ∧
    execIsOk c7game (.sell .leather (-1)) = true ∧
    execHandP1 c7game (.sell .leather (-1)) CardType.leather = some 1 := by
  decide

/-- C5 counterexample.  In `c5game` exactly two goods-token piles (fewer
than three) still hold at least 3 tokens and the deck stays non-empty, so
the claim says the end-of-round check fires; instead the code proceeds to
the next turn: the acting player is toggled, the machine re-enters the
player-turn state and no seal is awarded. -/
theorem round_end_not_triggered_with_two_low_piles :
    pilesGE3 (machineStep shStd c5game (.playerAction .takeCamels)).1 = 2 ∧
    (machineStep shStd c5game (.playerAction .takeCamels)).1.deck.length = 1 ∧
    (machineStep shStd c5game (.playerAction .takeCamels)).2 = none ∧
    (machineStep shStd c5game (.playerAction .takeCamels)).1.state =
      GState.playerTurn ∧
    (machineStep shStd c5game (.playerAction .takeCamels)).1.cur = false ∧
    (machineStep shStd c5game (.playerAction .takeCamels)).1.player1.seals = 0 ∧
    (machineStep shStd c5game (.playerAction .takeCamels)).1.player2.seals = 0 := by
  decide

/-- C8 counterexample.  Starting a round of a fresh game with the identity
shuffle removes 15 cards from the 55-card deck (3 camels and 2 cards to the
market, 5 to each hand), leaving 40, not the claimed 42; market and hand
sizes are as claimed. -/
theorem setup_deck_size_not_42 :
    (machineStep shStd initialGame .startRound).2 = none ∧
    msize (machineStep shStd initialGame .startRound).1.playArea = 5 ∧
    (machineStep shStd initialGame .startRound).1.playArea CardType.camel = 3 ∧
    msize (machineStep shStd initialGame .startRound).1.player1.hand = 5 ∧
    msize (machineStep shStd initialGame .startRound).1.player2.hand = 5 ∧
    (machineStep shStd initialGame .startRound).1.deck.length = 40 ∧
    (machineStep shStd initialGame .startRound).1.deck.length ≠ 42 := by
  decide

/-- `popTop` fails exactly on the empty list. -/
lemma popTop_eq_none {α : Type} {l : List α} : popTop l = none ↔ l = [] := by
  cases l with
  | nil => simp [popTop]
  | cons a as =>
    simp only [popTop]
    cases h : popTop as with
    | none => simp
    | some p => simp

/-- Popping the top card shortens the list by one. -/
lemma popTop_length {α : Type} :
    ∀ {l : List α} {c : α} {r : List α}, popTop l = some (c, r) →
      l.length = r.length + 1 := by
  intro l
  induction l with
  | nil => intro c r h; simp [popTop] at h
  | cons a as ih =>
    intro c r h
    simp only [popTop] at h
    cases hp : popTop as with
    | none =>
      rw [hp] at h
      have has : as = [] := popTop_eq_none.mp hp
      simp only [Option.some.injEq, Prod.mk.injEq] at h
      subst has
      simp [← h.2]
    | some p =>
      obtain ⟨c2, rest⟩ := p
      rw [hp] at h
      simp only [Option.some.injEq, Prod.mk.injEq] at h
      have hlen := ih hp
      rw [← h.2]
      simp [hlen]

/-- Adding one card raises the multiset size by one. -/
lemma msize_madd1 (m : MSet) (c : CardType) :
    msize (madd1 m c) = msize m + 1 := by
  cases c <;> simp [msize, allCardTypes, madd1] <;> omega

/-- Adding one card never lowers any multiplicity. -/
lemma madd1_le (m : MSet) (c x : CardType) : m x ≤ madd1 m c x := by
  unfold madd1
  split <;> omega

/-- A multiset that is zero everywhere has size zero. -/
lemma msize_eq_zero {m : MSet} (h : ∀ c, m c = 0) : msize m = 0 := by
  simp [msize, allCardTypes, h]

/-- The dealing loop succeeds on a deck of at least `n` cards, shortening
the deck by `n`, enlarging the multiset by `n`, and never removing cards
from the multiset. -/
lemma dealLoop_spec :
    ∀ (n : Nat) (d : List CardType) (m : MSet), n ≤ d.length →
      ∃ d2 m2, dealLoop n d m = some (d2, m2) ∧ d2.length + n = d.length ∧
        msize m2 = msize m + n ∧ ∀ c, m c ≤ m2 c := by
  intro n
  induction n with
  | zero =>
    intro d m _
    exact ⟨d, m, rfl, by omega, by omega, fun c => le_refl _⟩
  | succ k ih =>
    intro d m hn
    cases hp : popTop d with
    | none =>
      have : d = [] := popTop_eq_none.mp hp
      subst this
      simp at hn
    | some p =>
      obtain ⟨c, rest⟩ := p
      have hlen : d.length = rest.length + 1 := popTop_length hp
      obtain ⟨d2, m2, h1, h2, h3, h4⟩ :=
        ih rest (madd1 m c) (by omega)
      refine ⟨d2, m2, ?_, by omega, ?_, ?_⟩
      · simp [dealLoop, hp, h1]
      · rw [h3, msize_madd1]; omega
      · intro x
        exact le_trans (madd1_le m c x) (h4 x)

/-- Removing the deck's first camel when one is present: the length drops by
one and the camel count drops by one. -/
lemma eraseCamel_spec {d : List CardType} (h : 0 < d.count CardType.camel) :
    eraseCamel d = some (d.erase CardType.camel) ∧
    (d.erase CardType.camel).length + 1 = d.length ∧
    (d.erase CardType.camel).count CardType.camel + 1 =
      d.count CardType.camel := by
  have hm : CardType.camel ∈ d := by
    by_contra hnm
    rw [List.count_eq_zero.mpr hnm] at h
    omega
  refine ⟨by simp [eraseCamel, hm], ?_, ?_⟩
  · rw [List.length_erase_of_mem hm]
    have : 1 ≤ d.length := List.length_pos.mpr (by intro he; subst he; simp at hm)
    omega
  · rw [List.count_erase_self]
    omega

/-- The setup dealing succeeds on any 55-card deck holding at least three
camels, and produces a 40-card deck, a 5-card market holding at least three
camels, and hands enlarged by exactly 5 cards each. -/
lemma setupCore_spec (sh : Shuffle) (h1 h2 : MSet)
    (hl : sh.deck.length = 55) (hc : 3 ≤ sh.deck.count CardType.camel) :
    ∃ d pa h1x h2x,
      setupCore sh h1 h2 = some (d, pa, h1x, h2x) ∧
      d.length = 40 ∧ msize pa = 5 ∧ 3 ≤ pa CardType.camel ∧
      msize h1x = msize h1 + 5 ∧ (∀ c, h1 c ≤ h1x c) ∧
      msize h2x = msize h2 + 5 ∧ (∀ c, h2 c ≤ h2x c) := by
  obtain ⟨e1, el1, ec1⟩ := eraseCamel_spec (d := sh.deck) (by omega)
  set d1 := sh.deck.erase CardType.camel with hd1
  obtain ⟨e2, el2, ec2⟩ := eraseCamel_spec (d := d1) (by omega)
  set d2 := d1.erase CardType.camel with hd2
  obtain ⟨e3, el3, ec3⟩ := eraseCamel_spec (d := d2) (by omega)
  set d3 := d2.erase CardType.camel with hd3
  set paC : MSet :=
    madd1 (madd1 (madd1 mzero CardType.camel) CardType.camel) CardType.camel
    with hpaC
  obtain ⟨d4, pa, q1, q2, q3, q4⟩ := dealLoop_spec 2 d3 paC (by omega)
  obtain ⟨d5, h1x, r1, r2, r3, r4⟩ := dealLoop_spec 5 d4 h1 (by omega)
  obtain ⟨d6, h2x, s1, s2, s3, s4⟩ := dealLoop_spec 5 d5 h2 (by omega)
  refine ⟨d6, pa, h1x, h2x, ?_, by omega, ?_, ?_, by omega, r4, by omega, s4⟩
  · simp only [setupCore, e1, e2, e3, q1, r1, s1]
  · have : msize paC = 3 := by decide
    omega
  · have : paC CardType.camel = 3 := by decide
    have := q4 CardType.camel
    omega

/-- The shape of a successful `_setup_round`: state moves to the player
turn, the containers are rebuilt, hands grow by the dealt cards, and the
token lists, seal counts and acting player are untouched. -/
lemma setupRound_spec (sh : Shuffle) (g : Game)
    (hl : sh.deck.length = 55) (hc : 3 ≤ sh.deck.count CardType.camel) :
    ∃ g2, setupRound sh g = some g2 ∧
      g2.state = GState.playerTurn ∧
      g2.deck.length = 40 ∧ msize g2.playArea = 5 ∧
      3 ≤ g2.playArea CardType.camel ∧
      msize g2.player1.hand = msize g.player1.hand + 5 ∧
      (∀ c, g.player1.hand c ≤ g2.player1.hand c) ∧
      msize g2.player2.hand = msize g.player2.hand + 5 ∧
      (∀ c, g.player2.hand c ≤ g2.player2.hand c) ∧
      g2.player1.tokens = g.player1.tokens ∧
      g2.player2.tokens = g.player2.tokens ∧
      g2.player1.seals = g.player1.seals ∧
      g2.player2.seals = g.player2.seals ∧
      g2.cur = g.cur := by
  obtain ⟨d, pa, h1x, h2x, hcore, hd, hpa, hcam, hm1, hle1, hm2, hle2⟩ :=
    setupCore_spec sh g.player1.hand g.player2.hand hl hc
  refine ⟨{ g with
      playArea := pa
      deck := d
      tokens := initTokens
      bonus3 := sh.b3
      bonus4 := sh.b4
      bonus5 := sh.b5
      player1 := { g.player1 with hand := h1x }
      player2 := { g.player2 with hand := h2x }
      state := .playerTurn }, ?_, rfl, hd, hpa, hcam,
    hm1, hle1, hm2, hle2, rfl, rfl, rfl, rfl, rfl⟩
  simp only [setupRound, hcore]

/-- Seal counts are never changed by `_setup_round`. -/
lemma setupRound_seals {sh : Shuffle} {g g2 : Game}
    (h : setupRound sh g = some g2) :
    g2.player1.seals = g.player1.seals ∧
    g2.player2.seals = g.player2.seals ∧
    g2.state = GState.playerTurn := by
  unfold setupRound at h
  cases hc : setupCore sh g.player1.hand g.player2.hand with
  | none => rw [hc] at h; simp at h
  | some q =>
    obtain ⟨d, pa, h1x, h2x⟩ := q
    rw [hc] at h
    simp only [Option.some.injEq] at h
    subst h
    exact ⟨rfl, rfl, rfl⟩

/-- Unwrap a successful action result, with a default for the error case. -/
def okOr (r : Except PyError Game) (d : Game) : Game :=
  match r with
  | .ok g => g
  | .error _ => d

/-- C3.  Any rejected `player_action` (any action kind, any payload) leaves
the game record — every container, both players' tokens and seals, and the
acting-player flag — literally unchanged, and the machine is again in the
player-turn state, so the turn is not consumed. -/
theorem rejected_action_leaves_game_unchanged (sh : Shuffle) (g : Game)
    (a : Action) (e : PyError) (hs : g.state = GState.playerTurn)
    (he : executeAction g a = .error e) :
    machineStep sh g (.playerAction a) = (g, some (StepErr.py e)) ∧
    (machineStep sh g (.playerAction a)).1.state = GState.playerTurn := by
  have h1 : machineStep sh g (.playerAction a) = (g, some (StepErr.py e)) := by
    simp [machineStep, hs, he]
  exact ⟨h1, by rw [h1]; exact hs⟩

/-- A player-turn position with an empty market, so that taking camels is
rejected. -/
def c3game : Game := { initialGame with state := .playerTurn }

/-- Witness for the rejected-action theorem: taking camels from an empty
market is rejected and changes nothing. -/
theorem rejected_action_leaves_game_unchanged_witness :
    machineStep shStd c3game (.playerAction .takeCamels) =
      (c3game, some (StepErr.py PyError.illegalPlay)) ∧
    (machineStep shStd c3game (.playerAction .takeCamels)).1.state =
      GState.playerTurn :=
  rejected_action_leaves_game_unchanged shStd c3game .takeCamels
    .illegalPlay rfl rfl

/-- C5 (amended).  After every successful action the market is refilled and
the end-of-round check runs; it enters round-end scoring exactly when the
(post-refill) deck is empty or when *no* goods-token pile still holds at
least 3 tokens — not when fewer than three do — and otherwise the machine
advances to the next turn, toggling the acting player. -/
theorem round_end_condition_amended (sh : Shuffle) (g : Game) (a : Action)
    (g1 : Game) (hs : g.state = GState.playerTurn)
    (he : executeAction g a = .ok g1) :
    ((fillPlayArea g1).deck.length = 0 ∨ pilesGE3 (fillPlayArea g1) = 0 →
      machineStep sh g (.playerAction a) = roundEnd sh (fillPlayArea g1)) ∧
    (¬((fillPlayArea g1).deck.length = 0 ∨ pilesGE3 (fillPlayArea g1) = 0) →
      machineStep sh g (.playerAction a) =
        ({ fillPlayArea g1 with
            cur := !(fillPlayArea g1).cur
            state := GState.playerTurn }, none)) := by
  have hred : machineStep sh g (.playerAction a) = afterSuccess sh g1 := by
    simp [machineStep, hs, he]
  constructor
  · intro h
    rw [hred]
    simp only [afterSuccess]
    rw [if_pos h]
  · intro h
    rw [hred]
    simp only [afterSuccess]
    rw [if_neg h]

/-- The game produced by the successful camel-taking action in `c5game`. -/
def c5g1 : Game := okOr (executeAction c5game .takeCamels) c5game

/-- Witness for the amended end-of-round condition at `c5game`: with two
piles still at 3 tokens and a non-empty deck the machine advances to the
next turn. -/
theorem round_end_condition_amended_witness :
    (((fillPlayArea c5g1).deck.length = 0 ∨ pilesGE3 (fillPlayArea c5g1) = 0 →
      machineStep shStd c5game (.playerAction .takeCamels) =
        roundEnd shStd (fillPlayArea c5g1)) ∧
    (¬((fillPlayArea c5g1).deck.length = 0 ∨
        pilesGE3 (fillPlayArea c5g1) = 0) →
      machineStep shStd c5game (.playerAction .takeCamels) =
        ({ fillPlayArea c5g1 with
            cur := !(fillPlayArea c5g1).cur
            state := GState.playerTurn }, none))) :=
  round_end_condition_amended shStd c5game .takeCamels c5g1 rfl rfl

/-- C8 (amended).  Starting a round of a fresh game (setup state, empty
hands) with any 55-card shuffled deck holding at least three camels leaves a
5-card market containing at least three camels, 5-card hands, and a 40-card
deck (55 − 15), with the machine in the player-turn state. -/
theorem setup_sizes_amended (sh : Shuffle) (g : Game)
    (hl : sh.deck.length = 55) (hc : 3 ≤ sh.deck.count CardType.camel)
    (hs : g.state = GState.setup)
    (hh1 : ∀ c, g.player1.hand c = 0) (hh2 : ∀ c, g.player2.hand c = 0) :
    (machineStep sh g .startRound).2 = none ∧
    msize (machineStep sh g .startRound).1.playArea = 5 ∧
    3 ≤ (machineStep sh g .startRound).1.playArea CardType.camel ∧
    msize (machineStep sh g .startRound).1.player1.hand = 5 ∧
    msize (machineStep sh g .startRound).1.player2.hand = 5 ∧
    (machineStep sh g .startRound).1.deck.length = 40 ∧
    (machineStep sh g .startRound).1.state = GState.playerTurn := by
  obtain ⟨g2, hsr, hst, hd, hpa, hcam, hm1, _, hm2, _, _, _, _, _, _⟩ :=
    setupRound_spec sh g hl hc
  have hred : machineStep sh g .startRound = (g2, none) := by
    simp [machineStep, hs, hsr]
  rw [hred]
  refine ⟨rfl, hpa, hcam, ?_, ?_, hd, hst⟩
  · rw [hm1, msize_eq_zero hh1]
  · rw [hm2, msize_eq_zero hh2]

/-- Witness for the amended setup sizes at the identity shuffle. -/
theorem setup_sizes_amended_witness :
    (machineStep shStd initialGame .startRound).2 = none ∧
    msize (machineStep shStd initialGame .startRound).1.playArea = 5 ∧
    3 ≤ (machineStep shStd initialGame .startRound).1.playArea
      CardType.camel ∧
    msize (machineStep shStd initialGame .startRound).1.player1.hand = 5 ∧
    msize (machineStep shStd initialGame .startRound).1.player2.hand = 5 ∧
    (machineStep shStd initialGame .startRound).1.deck.length = 40 ∧
    (machineStep shStd initialGame .startRound).1.state =
      GState.playerTurn :=
  setup_sizes_amended shStd initialGame (by decide) (by decide) rfl
    (fun _ => rfl) (fun _ => rfl)

/-- C10.  `start_round` from the between-rounds state clears neither hands
nor token lists: every held card survives and exactly 5 dealt cards are
added per player, the token lists (and hence the point totals that later
scoring sums) carry over unchanged, as do the seal counts. -/
theorem start_round_preserves_hands_and_tokens (sh : Shuffle) (g : Game)
    (hl : sh.deck.length = 55) (hc : 3 ≤ sh.deck.count CardType.camel)
    (hs : g.state = GState.betweenRounds) :
    (machineStep sh g .startRound).2 = none ∧
    (machineStep sh g .startRound).1.player1.tokens = g.player1.tokens ∧
    (machineStep sh g .startRound).1.player2.tokens = g.player2.tokens ∧
    playerPoints (machineStep sh g .startRound).1.player1 =
      playerPoints g.player1 ∧
    playerPoints (machineStep sh g .startRound).1.player2 =
      playerPoints g.player2 ∧
    msize (machineStep sh g .startRound).1.player1.hand =
      msize g.player1.hand + 5 ∧
    msize (machineStep sh g .startRound).1.player2.hand =
      msize g.player2.hand + 5 ∧
    (∀ c, g.player1.hand c ≤ (machineStep sh g .startRound).1.player1.hand c) ∧
    (∀ c, g.player2.hand c ≤ (machineStep sh g .startRound).1.player2.hand c) ∧
    (machineStep sh g .startRound).1.player1.seals = g.player1.seals ∧
    (machineStep sh g .startRound).1.player2.seals = g.player2.seals := by
  obtain ⟨g2, hsr, _, _, _, _, hm1, hle1, hm2, hle2, ht1, ht2, hs1, hs2, _⟩ :=
    setupRound_spec sh g hl hc
  have hred : machineStep sh g .startRound = (g2, none) := by
    simp [machineStep, hs, hsr]
  rw [hred]
  refine ⟨rfl, ht1, ht2, ?_, ?_, hm1, hm2, hle1, hle2, hs1, hs2⟩
  · unfold playerPoints
    rw [ht1]
  · unfold playerPoints
    rw [ht2]

/-- A between-rounds position carrying cards, tokens and a seal from the
previous round. -/
def c10game : Game :=
  { initialGame with
    player1 := { hand := MSet.ofList [.camel, .camel]
                 tokens := [PToken.goods .leather 2, PToken.bonus 3 3]
                 seals := 1 }
    player2 := { hand := MSet.ofList [.gold]
                 tokens := [PToken.goods .spice 5]
                 seals := 0 }
    state := .betweenRounds }

/-- Witness for the carry-over theorem at a concrete between-rounds
position. -/
theorem start_round_preserves_hands_and_tokens_witness :
    (machineStep shStd c10game .startRound).2 = none ∧
    (machineStep shStd c10game .startRound).1.player1.tokens =
      c10game.player1.tokens ∧
    (machineStep shStd c10game .startRound).1.player2.tokens =
      c10game.player2.tokens ∧
    playerPoints (machineStep shStd c10game .startRound).1.player1 =
      playerPoints c10game.player1 ∧
    playerPoints (machineStep shStd c10game .startRound).1.player2 =
      playerPoints c10game.player2 ∧
    msize (machineStep shStd c10game .startRound).1.player1.hand =
      msize c10game.player1.hand + 5 ∧
    msize (machineStep shStd c10game .startRound).1.player2.hand =
      msize c10game.player2.hand + 5 ∧
    (∀ c, c10game.player1.hand c ≤
      (machineStep shStd c10game .startRound).1.player1.hand c) ∧
    (∀ c, c10game.player2.hand c ≤
      (machineStep shStd c10game .startRound).1.player2.hand c) ∧
    (machineStep shStd c10game .startRound).1.player1.seals =
      c10game.player1.seals ∧
    (machineStep shStd c10game .startRound).1.player2.seals =
      c10game.player2.seals :=
  start_round_preserves_hands_and_tokens shStd c10game (by decide)
    (by decide) rfl

/-- Writing back an acting player whose seal count is unchanged preserves
both seal counts and the machine state. -/
lemma setCur_seals {g : Game} {p : Player} (h : p.seals = (getCur g).seals) :
    (setCur g p).player1.seals = g.player1.seals ∧
    (setCur g p).player2.seals = g.player2.seals ∧
    (setCur g p).state = g.state := by
  unfold setCur getCur at *
  cases hc : g.cur <;> rw [hc] at h <;> simp at h ⊢ <;> simp [h]

/-- `_execute_action` never changes a seal count or the machine state. -/
lemma executeAction_seals {g : Game} {a : Action} {g2 : Game}
    (h : executeAction g a = .ok g2) :
    g2.player1.seals = g.player1.seals ∧
    g2.player2.seals = g.player2.seals ∧
    g2.state = g.state := by
  cases a <;> simp only [executeAction] at h <;> repeat' split at h
  all_goals
    first
    | (injection h with h2
       subst h2
       exact setCur_seals rfl)
    | simp at h

/-- `_fill_play_area` touches only the deck and the play area. -/
lemma fillPlayArea_fields (g : Game) :
    (fillPlayArea g).player1 = g.player1 ∧
    (fillPlayArea g).player2 = g.player2 ∧
    (fillPlayArea g).cur = g.cur := ⟨rfl, rfl, rfl⟩

/-- `_check_for_end_of_game` preserves seal counts, awards player 1's
victory at two seals, player 2's otherwise at two seals, and otherwise
starts a new round ending in the player-turn state. -/
lemma checkEndOfGame_spec (sh : Shuffle) (gx : Game) :
    (checkEndOfGame sh gx).1.player1.seals = gx.player1.seals ∧
    (checkEndOfGame sh gx).1.player2.seals = gx.player2.seals ∧
    (gx.player1.seals = 2 →
      (checkEndOfGame sh gx).1.state = GState.player1Victory) ∧
    (gx.player1.seals ≠ 2 → gx.player2.seals = 2 →
      (checkEndOfGame sh gx).1.state = GState.player2Victory) ∧
    (gx.player1.seals ≠ 2 → gx.player2.seals ≠ 2 →
      (checkEndOfGame sh gx).1.state = GState.playerTurn) := by
  unfold checkEndOfGame
  by_cases hp1 : gx.player1.seals = 2
  · rw [if_pos hp1]
    exact ⟨rfl, rfl, fun _ => rfl, fun hn _ => absurd hp1 hn,
      fun hn _ => absurd hp1 hn⟩
  · rw [if_neg hp1]
    by_cases hp2 : gx.player2.seals = 2
    · rw [if_pos hp2]
      exact ⟨rfl, rfl, fun hh => absurd hh hp1, fun _ _ => rfl,
        fun _ hn => absurd hp2 hn⟩
    · rw [if_neg hp2]
      cases hsr : setupRound sh gx with
      | none =>
        exact ⟨rfl, rfl, fun hh => absurd hh hp1, fun _ hh => absurd hh hp2,
          fun _ _ => rfl⟩
      | some g2 =>
        obtain ⟨q1, q2, q3⟩ := setupRound_seals hsr
        refine ⟨q1, q2, fun hh => ?_, fun _ hh => ?_, fun _ _ => q3⟩
        · rw [q1] at *
          exact absurd hh hp1
        · rw [q2] at *
          exact absurd hh hp2

/-- `_check_for_end_of_game` awards the matching victory state whenever a
seal count stands at 2, provided the other player's count cannot also be 2
(as in any reachable round flow, where at most one seal was just added). -/
lemma checkEndOfGame_final (sh : Shuffle) (gx : Game)
    (hx : gx.player1.seals ≤ 2 ∧ gx.player2.seals ≤ 1 ∨
      gx.player1.seals ≤ 1 ∧ gx.player2.seals ≤ 2) :
    ((checkEndOfGame sh gx).1.player1.seals = 2 →
      (checkEndOfGame sh gx).1.state = GState.player1Victory) ∧
    ((checkEndOfGame sh gx).1.player2.seals = 2 →
      (checkEndOfGame sh gx).1.state = GState.player2Victory) := by
  obtain ⟨q1, q2, q3, q4, q5⟩ := checkEndOfGame_spec sh gx
  by_cases hp1 : gx.player1.seals = 2
  · have hst := q3 hp1
    have hp2 : gx.player2.seals ≤ 1 := by
      rcases hx with ⟨_, hb⟩ | ⟨ha, _⟩
      · exact hb
      · omega
    refine ⟨fun _ => hst, fun hh => ?_⟩
    rw [q2] at hh
    omega
  · by_cases hp2 : gx.player2.seals = 2
    · have hst := q4 hp1 hp2
      refine ⟨fun hh => ?_, fun _ => hst⟩
      rw [q1] at hh
      exact absurd hh hp1
    · refine ⟨fun hh => ?_, fun hh => ?_⟩
      · rw [q1] at hh
        exact absurd hh hp1
      · rw [q2] at hh
        exact absurd hh hp2

/-- The round-end branch, started with both seal counts at most 1, ends in
player N's victory state whenever player N's seal count has reached 2. -/
lemma roundEnd_victory (sh : Shuffle) (g : Game)
    (h1 : g.player1.seals ≤ 1) (h2 : g.player2.seals ≤ 1) :
    ((roundEnd sh g).1.player1.seals = 2 →
      (roundEnd sh g).1.state = GState.player1Victory) ∧
    ((roundEnd sh g).1.player2.seals = 2 →
      (roundEnd sh g).1.state = GState.player2Victory) := by
  simp only [roundEnd]
  cases hw : decideWinner
      (if g.player2.hand CardType.camel < g.player1.hand CardType.camel
        then playerPoints g.player1 + 5 else playerPoints g.player1)
      (if g.player1.hand CardType.camel < g.player2.hand CardType.camel
        then playerPoints g.player2 + 5 else playerPoints g.player2)
      g.player1 g.player2 with
  | error e =>
    constructor <;> intro hh <;> simp at hh ⊢ <;> omega
  | ok w =>
    cases w with
    | none =>
      exact checkEndOfGame_final sh g (Or.inl ⟨by omega, h2⟩)
    | some b =>
      cases b with
      | true =>
        exact checkEndOfGame_final sh
          { g with
              player1 := { g.player1 with seals := g.player1.seals + 1 }
              cur := false }
          (Or.inl ⟨by show g.player1.seals + 1 ≤ 2; omega,
            by show g.player2.seals ≤ 1; exact h2⟩)
      | false =>
        exact checkEndOfGame_final sh
          { g with
              player2 := { g.player2 with seals := g.player2.seals + 1 }
              cur := true }
          (Or.inr ⟨by show g.player1.seals ≤ 1; exact h1,
            by show g.player2.seals + 1 ≤ 2; omega⟩)

/-- A `start_round` processed from the setup or between-rounds state can
only reach a victory state through a seal count that was already 2. -/
lemma machineStep_start_victory (sh : Shuffle) (g : Game)
    (hs : g.state = GState.setup ∨ g.state = GState.betweenRounds)
    (h1 : g.player1.seals ≤ 1) (h2 : g.player2.seals ≤ 1) :
    ((machineStep sh g .startRound).1.player1.seals = 2 →
      (machineStep sh g .startRound).1.state = GState.player1Victory) ∧
    ((machineStep sh g .startRound).1.player2.seals = 2 →
      (machineStep sh g .startRound).1.state = GState.player2Victory) := by
  have hred : machineStep sh g .startRound =
      (match setupRound sh g with
       | some g2 => (g2, none)
       | none => ({ g with state := .playerTurn }, some (.py .valueError))) := by
    rcases hs with hs | hs <;> simp [machineStep, hs]
  rw [hred]
  cases hsr : setupRound sh g with
  | none =>
    constructor <;> intro hh <;> simp at hh ⊢ <;> omega
  | some g2 =>
    obtain ⟨q1, q2, q3⟩ := setupRound_seals hsr
    constructor <;> intro hh <;> simp [q3] at hh ⊢ <;> omega

/-- A `player_action` processed from the player-turn state with both seal
counts at most 1 ends in player N's victory state exactly when player N's
seal count has been raised to 2 by the round-end scoring. -/
lemma machineStep_action_victory (sh : Shuffle) (g : Game) (a : Action)
    (hst : g.state = GState.playerTurn)
    (h1 : g.player1.seals ≤ 1) (h2 : g.player2.seals ≤ 1) :
    ((machineStep sh g (.playerAction a)).1.player1.seals = 2 →
      (machineStep sh g (.playerAction a)).1.state = GState.player1Victory) ∧
    ((machineStep sh g (.playerAction a)).1.player2.seals = 2 →
      (machineStep sh g (.playerAction a)).1.state = GState.player2Victory) := by
  cases he : executeAction g a with
  | error e =>
    have hred : machineStep sh g (.playerAction a) = (g, some (.py e)) := by
      simp [machineStep, hst, he]
    rw [hred]
    constructor <;> intro hh <;> simp [hst] at hh ⊢ <;> omega
  | ok g1 =>
    have hred : machineStep sh g (.playerAction a) = afterSuccess sh g1 := by
      simp [machineStep, hst, he]
    rw [hred]
    obtain ⟨e1, e2, _⟩ := executeAction_seals he
    have f1 : (fillPlayArea g1).player1.seals = g.player1.seals := by
      rw [(fillPlayArea_fields g1).1, e1]
    have f2 : (fillPlayArea g1).player2.seals = g.player2.seals := by
      rw [(fillPlayArea_fields g1).2.1, e2]
    simp only [afterSuccess]
    by_cases hc : (fillPlayArea g1).deck.length = 0 ∨
        pilesGE3 (fillPlayArea g1) = 0
    · rw [if_pos hc]
      exact roundEnd_victory sh (fillPlayArea g1) (by omega) (by omega)
    · rw [if_neg hc]
      constructor <;> intro hh <;> simp at hh ⊢ <;> omega

/-- C9.  The victory states are terminal: any input processed there raises
`NoTransition` and leaves the game record untouched, so the machine never
leaves them; and a match that starts any input with both seal counts at most
1 is in the corresponding victory state whenever a seal count has reached 2
after the input is processed. -/
theorem victory_states_terminal :
    (∀ (sh : Shuffle) (g : Game) (i : Input),
      g.state = GState.player1Victory ∨ g.state = GState.player2Victory →
      machineStep sh g i = (g, some StepErr.noTransition)) ∧
    (∀ (sh : Shuffle) (g : Game) (i : Input),
      g.player1.seals ≤ 1 → g.player2.seals ≤ 1 →
      ((machineStep sh g i).1.player1.seals = 2 →
        (machineStep sh g i).1.state = GState.player1Victory) ∧
      ((machineStep sh g i).1.player2.seals = 2 →
        (machineStep sh g i).1.state = GState.player2Victory)) := by
  constructor
  · intro sh g i hv
    obtain ⟨p1, p2, pa, dk, tk, b3, b4, b5, cu, st⟩ := g
    rcases hv with hv | hv <;> dsimp only at hv <;> subst hv <;>
      cases i <;> rfl
  · intro sh g i h1 h2
    cases i with
    | startRound =>
      cases hst : g.state
      case setup => exact machineStep_start_victory sh g (Or.inl hst) h1 h2
      case betweenRounds =>
        exact machineStep_start_victory sh g (Or.inr hst) h1 h2
      all_goals
        simp only [machineStep, hst]
        constructor <;> intro hh <;> simp [hst] at hh ⊢ <;> omega
    | playerAction a =>
      cases hst : g.state
      case playerTurn => exact machineStep_action_victory sh g a hst h1 h2
      all_goals
        simp only [machineStep, hst]
        constructor <;> intro hh <;> simp [hst] at hh ⊢ <;> omega

/-- A finished match: player 1 holds two seals and the machine is in the
player-1 victory state. -/
def victoryGame : Game :=
  { initialGame with
    player1 := { emptyPlayer with seals := 2 }
    state := .player1Victory }

/-- Witness for the terminal-victory theorem: the victory state rejects a
`start_round` unchanged, and a fresh game's step keeps the seal/victory
correspondence. -/
theorem victory_states_terminal_witness :
    machineStep shStd victoryGame .startRound =
      (victoryGame, some StepErr.noTransition) ∧
    (((machineStep shStd initialGame .startRound).1.player1.seals = 2 →
      (machineStep shStd initialGame .startRound).1.state =
        GState.player1Victory) ∧
     ((machineStep shStd initialGame .startRound).1.player2.seals = 2 →
      (machineStep shStd initialGame .startRound).1.state =
        GState.player2Victory)) :=
  ⟨victory_states_terminal.1 shStd victoryGame .startRound (Or.inl rfl),
   victory_states_terminal.2 shStd initialGame .startRound (by decide)
     (by decide)⟩

end Jaipur
